import Mathlib

/-!
Verification of the signal-acquisition pipeline of the CardioSense app.

Shallow embedding of:
* `src/services/ecgSimulator.ts` — `generateECGSignal` (the waveform synthesizer),
  modelled over the real numbers; `Math.random()` is modelled as an explicit
  oracle argument `rand`, and JavaScript's `%` (truncated remainder) as `jsMod`.
* `src/services/bluetoothService.ts` — `handleNotifications` (the frame
  reassembler), modelled over `List Char` for the text buffer and `JsFloat`
  (a finite exact rational or one of the two infinities) for the float values
  produced by `parseFloat`; `NaN` is the parse failure `none`.
* `src/App.tsx` — the acquisition-session handlers `handleStart`, `handleStop`,
  `handleReset`, the stream-failure catch handler, and the capped sample
  history update (`newHistory.length > 5000 ? newHistory.slice(-5000) : ...`).
-/

/-! ### Waveform synthesizer (`src/services/ecgSimulator.ts`) -/

open Classical in
/-- JavaScript's `%` on numbers: the truncated remainder `x - d * trunc (x / d)`
(truncation toward zero, so the floor is used for a nonnegative quotient and the
ceiling for a negative one). -/
noncomputable def jsMod (x d : ℝ) : ℝ :=
  x - d * (if 0 ≤ x / d then (⌊x / d⌋ : ℤ) else (⌈x / d⌉ : ℤ))

/-- The normalized time 0 to 1 within a beat:
`const t = (timeMs % beatDuration) / beatDuration` with
`const beatDuration = 60000 / bpm`. -/
noncomputable def beatPhase (timeMs bpm : ℝ) : ℝ :=
  jsMod timeMs (60000 / bpm) / (60000 / bpm)

/-- `generateECGSignal` from `src/services/ecgSimulator.ts`: the sum of the P,
Q, R, S, T Gaussian bumps, the uniform noise term and the baseline drift.
`rand` stands for the value drawn by `Math.random()` in this call (the source
computes `noise = (Math.random() - 0.5) * noiseLevel`). -/
noncomputable def generateECGSignal (timeMs bpm noiseLevel rand : ℝ) : ℝ :=
  0.15 * Real.exp (-(((beatPhase timeMs bpm - 0.2) / 0.03) ^ 2))
    + (-0.15) * Real.exp (-(((beatPhase timeMs bpm - 0.38) / 0.02) ^ 2))
    + 1.0 * Real.exp (-(((beatPhase timeMs bpm - 0.4) / 0.02) ^ 2))
    + (-0.25) * Real.exp (-(((beatPhase timeMs bpm - 0.42) / 0.02) ^ 2))
    + 0.3 * Real.exp (-(((beatPhase timeMs bpm - 0.7) / 0.08) ^ 2))
    + (rand - 0.5) * noiseLevel
    + 0.05 * Real.sin (timeMs / 2000)

/-- One Gaussian bump `amplitude * exp (-((t - center) / width) ^ 2)`, as the
spec words it. -/
noncomputable def gaussianBump (amplitude center width t : ℝ) : ℝ :=
  amplitude * Real.exp (-(((t - center) / width) ^ 2))

/-- The waveform as the spec words it: the five `(amplitude, center, width)`
bumps P `(+0.15, 0.20, 0.03)`, Q `(-0.15, 0.38, 0.02)`, R `(+1.00, 0.40, 0.02)`,
S `(-0.25, 0.42, 0.02)`, T `(+0.30, 0.70, 0.08)` evaluated at the beat-phase
`t = (elapsedMs mod (60000/bpm)) / (60000/bpm)`, plus the baseline drift
`0.05 * sin (elapsedMs / 2000)`. -/
noncomputable def specWaveform (elapsedMs bpm : ℝ) : ℝ :=
  gaussianBump 0.15 0.20 0.03 (beatPhase elapsedMs bpm)
    + gaussianBump (-0.15) 0.38 0.02 (beatPhase elapsedMs bpm)
    + gaussianBump 1.00 0.40 0.02 (beatPhase elapsedMs bpm)
    + gaussianBump (-0.25) 0.42 0.02 (beatPhase elapsedMs bpm)
    + gaussianBump 0.30 0.70 0.08 (beatPhase elapsedMs bpm)
    + 0.05 * Real.sin (elapsedMs / 2000)

/-- The error the spec expects for invalid synthesizer input. -/
inductive SynthError where
  | InvalidParameter
deriving DecidableEq

/-- The observable outcome of one call to `generateECGSignal`.  The source
function contains no validation and no throw statement, so every call returns
normally with a voltage; the `Except` wrapper records that no error outcome is
possible. -/
noncomputable def synthesizerCall (timeMs bpm noiseLevel rand : ℝ) :
    Except SynthError ℝ :=
  Except.ok (generateECGSignal timeMs bpm noiseLevel rand)

/-- With the noise level fixed to zero the synthesizer output is exactly the
spec's five-bump-plus-drift formula, whatever `Math.random()` returned. -/
lemma generateECGSignal_zero_noise (timeMs bpm rand : ℝ) :
    generateECGSignal timeMs bpm 0 rand = specWaveform timeMs bpm := by
  simp only [generateECGSignal, specWaveform, gaussianBump]
  ring_nf

/-- `jsMod` is invariant under adding one period, for a nonnegative dividend
and a positive divisor. -/
lemma jsMod_add_period (x d : ℝ) (hx : 0 ≤ x) (hd : 0 < d) :
    jsMod (x + d) d = jsMod x d := by
  have hq : 0 ≤ x / d := div_nonneg hx hd.le
  have hsum : (x + d) / d = x / d + 1 := by rw [add_div, div_self hd.ne']
  simp only [jsMod, hsum]
  rw [if_pos (by linarith), if_pos hq, Int.floor_add_one]
  push_cast
  ring

/-- The beat-phase is invariant under adding one beat duration. -/
lemma beatPhase_add_period (timeMs bpm : ℝ) (ht : 0 ≤ timeMs) (hb : 0 < bpm) :
    beatPhase (timeMs + 60000 / bpm) bpm = beatPhase timeMs bpm := by
  have hd : 0 < 60000 / bpm := by positivity
  simp only [beatPhase, jsMod_add_period timeMs (60000 / bpm) ht hd]

lemma jsMod_self_eq_zero : jsMod 1000 1000 = 0 := by
  have h : (1000 : ℝ) / 1000 = 1 := by norm_num
  simp only [jsMod, h]
  rw [if_pos (by norm_num)]
  norm_num

lemma jsMod_zero_left (d : ℝ) : jsMod 0 d = 0 := by
  simp [jsMod]

/-- The two beat-phases appearing in the C4 counterexample are both zero. -/
lemma beatPhase_c4 :
    beatPhase (0 + 60000 / 60) 60 = 0 ∧ beatPhase (0 : ℝ) 60 = 0 := by
  have h60 : (60000 : ℝ) / 60 = 1000 := by norm_num
  constructor
  · show jsMod (0 + 60000 / 60) (60000 / 60) / (60000 / 60) = 0
    rw [h60]
    norm_num [jsMod_self_eq_zero]
  · show jsMod 0 (60000 / 60) / (60000 / 60) = 0
    rw [h60, jsMod_zero_left]
    norm_num

/-! ### Frame reassembler (`src/services/bluetoothService.ts`, `handleNotifications`) -/

/-- `String.prototype.split('\n')`: the list of fragments of `cs` between
occurrences of the newline delimiter (empty fragments included, and one
trailing fragment after the final delimiter). -/
def splitNl : List Char → List (List Char)
  | [] => [[]]
  | c :: rest =>
    if c = '\n' then [] :: splitNl rest
    else
      match splitNl rest with
      | [] => [[c]]
      | l :: ls => (c :: l) :: ls

/-- `Array.prototype.pop() || ""`: the last element of a list of fragments,
with a default for the impossible empty case. -/
def lastD {α : Type} (d : α) : List α → α
  | [] => d
  | [a] => a
  | _ :: b :: l => lastD d (b :: l)

/-- The code points stripped by `String.prototype.trim()` (the ECMAScript
WhiteSpace and LineTerminator productions): TAB, LF, VT, FF, CR, SP, NBSP,
OGHAM SPACE MARK, the Unicode Zs spaces U+2000..U+200A, LS, PS, NARROW
NO-BREAK SPACE, MEDIUM MATHEMATICAL SPACE, IDEOGRAPHIC SPACE, and
ZWNBSP/BOM. -/
def isTrimSpace (c : Char) : Bool :=
  c.toNat = 0x09 || c.toNat = 0x0a || c.toNat = 0x0b || c.toNat = 0x0c
    || c.toNat = 0x0d || c.toNat = 0x20 || c.toNat = 0xa0 || c.toNat = 0x1680
    || (0x2000 <= c.toNat && c.toNat <= 0x200a)
    || c.toNat = 0x2028 || c.toNat = 0x2029 || c.toNat = 0x202f
    || c.toNat = 0x205f || c.toNat = 0x3000 || c.toNat = 0xfeff

/-- `String.prototype.trim()` on a character list. -/
def trimChars (cs : List Char) : List Char :=
  ((cs.dropWhile isTrimSpace).reverse.dropWhile isTrimSpace).reverse

/-- The natural number denoted by a list of decimal digit characters
(most significant first). -/
def digitsToNat (ds : List Char) : Nat :=
  ds.foldl (fun a c => a * 10 + (c.toNat - 48)) 0

/-- The fraction part scanned by `parseFloat` after the integer digits: if the
input starts with `'.'`, the digits following it, together with the rest of the
input after those digits; otherwise nothing. -/
def fracPart (cs : List Char) : List Char × List Char :=
  match cs with
  | [] => ([], [])
  | c :: rest =>
    if c = '.' then (rest.takeWhile Char.isDigit, rest.dropWhile Char.isDigit)
    else ([], c :: rest)

/-- The exponent scanned by `parseFloat` after an `e`/`E`: an optional sign and
at least one digit; if no digit follows, the exponent marker is ignored. -/
def expApply (m : ℚ) (cs : List Char) : ℚ :=
  let signRest : Int × List Char :=
    match cs with
    | [] => (1, [])
    | c :: rest =>
      if c = '+' then (1, rest)
      else if c = '-' then (-1, rest)
      else (1, c :: rest)
  let ds := signRest.2.takeWhile Char.isDigit
  if ds = [] then m else m * (10 : ℚ) ^ (signRest.1 * (digitsToNat ds : Int))

/-- Applies the exponent part to a mantissa when the rest of the input starts
with `e` or `E`. -/
def expPart (m : ℚ) (cs : List Char) : ℚ :=
  match cs with
  | [] => m
  | c :: rest => if c = 'e' ∨ c = 'E' then expApply m rest else m

/-- A successfully parsed JavaScript float value: a finite value (an exact
rational) or one of the two infinities.  `NaN` is not a `JsFloat`: the
reassembler discards `NaN` results (`isNaN` guard), so a failed parse is
`none` at the `Option JsFloat` level. -/
inductive JsFloat where
  | finite (val : ℚ)
  | infinite (negative : Bool)
deriving DecidableEq, Repr

/-- JavaScript unary minus on a parsed float value. -/
def JsFloat.neg : JsFloat → JsFloat
  | JsFloat.finite q => JsFloat.finite (-q)
  | JsFloat.infinite b => JsFloat.infinite (!b)

/-- The `Infinity` literal accepted by JavaScript's `parseFloat` as part of a
`StrDecimalLiteral` (case sensitive). -/
def infinityLiteral : List Char :=
  ['I', 'n', 'f', 'i', 'n', 'i', 't', 'y']

/-- `parseFloat` after the optional sign: the `Infinity` literal, or the
longest digit prefix with optional fraction and exponent; fails (JavaScript:
`NaN`) when there is no `Infinity` prefix and the integer and fraction digit
parts are both empty. -/
def parseUnsigned (cs : List Char) : Option JsFloat :=
  if cs.take 8 = infinityLiteral then some (JsFloat.infinite false)
  else
    let intDs := cs.takeWhile Char.isDigit
    let fd := (fracPart (cs.dropWhile Char.isDigit)).1
    let rest2 := (fracPart (cs.dropWhile Char.isDigit)).2
    if intDs = [] ∧ fd = [] then none
    else some (JsFloat.finite
      (expPart ((digitsToNat intDs : ℚ) + (digitsToNat fd : ℚ) / 10 ^ fd.length)
        rest2))

/-- JavaScript's `parseFloat` on an already-trimmed character list. -/
def parseFloat : List Char → Option JsFloat
  | [] => none
  | c :: rest =>
    if c = '-' then (parseUnsigned rest).map JsFloat.neg
    else if c = '+' then parseUnsigned rest
    else parseUnsigned (c :: rest)

/-- The input minus its optional leading sign character. -/
def stripSign : List Char → List Char
  | [] => []
  | c :: rest => if c = '-' ∨ c = '+' then rest else c :: rest

/-- Whether the input has a leading numeric prefix: after the optional sign, a
nonempty digit prefix, or a `'.'` immediately followed by at least one digit. -/
def hasLeadingNumber (cs : List Char) : Bool :=
  !((stripSign cs).takeWhile Char.isDigit).isEmpty
    || !((fracPart ((stripSign cs).dropWhile Char.isDigit)).1).isEmpty

/-- Whether the input starts, after the optional sign, with the `Infinity`
literal — the one non-`NaN` `parseFloat` result with no leading numeric
prefix. -/
def hasLeadingInfinity (cs : List Char) : Bool :=
  (stripSign cs).take 8 == infinityLiteral

/-- The per-record body of the `for (const line of lines)` loop: trim, skip
empty records, parse, skip `NaN`; `some v` means the sample `v` is emitted. -/
def parseRecord (line : List Char) : Option JsFloat :=
  let trimmed := trimChars line
  if trimmed.length > 0 then parseFloat trimmed else none

/-- `handleNotifications` on one decoded chunk: append the chunk to the
carry-over buffer, split on the newline delimiter, keep the last (possibly
incomplete) fragment as the new buffer, and emit the parse results of the
complete records in order.  Returns (new buffer, emitted voltages). -/
def handleNotifications (dataBuffer chunk : List Char) :
    List Char × List JsFloat :=
  let parts := splitNl (dataBuffer ++ chunk)
  (lastD [] parts, parts.dropLast.filterMap parseRecord)

/-- Feeding a sequence of chunks one notification at a time, collecting all
emitted voltages in order. -/
def feedChunks (dataBuffer : List Char) :
    List (List Char) → List Char × List JsFloat
  | [] => (dataBuffer, [])
  | c :: cs =>
    let r := handleNotifications dataBuffer c
    let rest := feedChunks r.1 cs
    (rest.1, r.2 ++ rest.2)

/-- A wire stream made of newline-terminated records followed by a trailing
(unterminated) fragment. -/
def encodeStream (recs : List (List Char)) (frag : List Char) : List Char :=
  (recs.map (fun r => r ++ ['\n'])).flatten ++ frag

lemma splitNl_ne_nil (cs : List Char) : splitNl cs ≠ [] := by
  induction cs with
  | nil => simp [splitNl]
  | cons c rest ih =>
    by_cases hc : c = '\n'
    · simp [splitNl, hc]
    · rcases hsp : splitNl rest with _ | ⟨l, ls⟩
      · exact absurd hsp ih
      · simp [splitNl, hc, hsp]

lemma splitNl_cons_of_ne (c : Char) (cs : List Char) (hc : c ≠ '\n') :
    splitNl (c :: cs) = (splitNl cs).modifyHead (fun l => c :: l) := by
  rcases hsp : splitNl cs with _ | ⟨l, ls⟩
  · exact absurd hsp (splitNl_ne_nil cs)
  · simp [splitNl, hc, hsp]

lemma nl_not_mem_of_mem_splitNl (cs : List Char) :
    ∀ l ∈ splitNl cs, '\n' ∉ l := by
  induction cs with
  | nil =>
    intro l hl
    simp [splitNl] at hl
    simp [hl]
  | cons c rest ih =>
    intro l hl
    by_cases hc : c = '\n'
    · rw [hc] at hl
      simp only [splitNl, if_pos rfl] at hl
      rcases List.mem_cons.mp hl with h | h
      · simp [h]
      · exact ih l h
    · rw [splitNl_cons_of_ne c rest hc] at hl
      rcases hsp : splitNl rest with _ | ⟨l0, ls⟩
      · exact absurd hsp (splitNl_ne_nil rest)
      · rw [hsp] at hl
        rcases List.mem_cons.mp hl with h | h
        · subst h
          intro hmem
          rcases List.mem_cons.mp hmem with h | h
          · exact hc h.symm
          · exact ih l0 (hsp ▸ List.mem_cons_self l0 ls) h
        · exact ih l (hsp ▸ List.mem_cons_of_mem l0 h)

lemma splitNl_no_nl (cs : List Char) (h : '\n' ∉ cs) : splitNl cs = [cs] := by
  induction cs with
  | nil => rfl
  | cons c rest ih =>
    have hc : c ≠ '\n' := fun hcc => h (hcc ▸ List.mem_cons_self c rest)
    have hrest : '\n' ∉ rest := fun hm => h (List.mem_cons_of_mem c hm)
    rw [splitNl_cons_of_ne c rest hc, ih hrest]
    rfl

/-- Prepending one complete (delimiter-free) record and its delimiter to a
stream prepends exactly one fragment to the split. -/
lemma splitNl_record_prefix (r x : List Char) (hr : '\n' ∉ r) :
    splitNl (r ++ '\n' :: x) = r :: splitNl x := by
  induction r with
  | nil => simp [splitNl]
  | cons c r ih =>
    have hc : c ≠ '\n' := fun hcc => hr (hcc ▸ List.mem_cons_self c r)
    have hr' : '\n' ∉ r := fun hm => hr (List.mem_cons_of_mem c hm)
    rw [List.cons_append, splitNl_cons_of_ne c _ hc, ih hr']
    rfl

lemma modifyHead_nil_append (l : List (List Char)) :
    l.modifyHead (fun x => [] ++ x) = l := by
  cases l <;> rfl

lemma modifyHead_ne_nil {α : Type} (f : α → α) (l : List α) (h : l ≠ []) :
    l.modifyHead f ≠ [] := by
  cases l with
  | nil => exact absurd rfl h
  | cons a as => simp

lemma lastD_append {α : Type} (d : α) (A B : List α) (hB : B ≠ []) :
    lastD d (A ++ B) = lastD d B := by
  induction A with
  | nil => rfl
  | cons a A ih =>
    rcases hAB : A ++ B with _ | ⟨c, rest⟩
    · rcases List.append_eq_nil.mp hAB with ⟨-, h2⟩
      exact absurd h2 hB
    · rw [List.cons_append, hAB]
      show lastD d (c :: rest) = lastD d B
      rw [← hAB, ih]

lemma lastD_mem {α : Type} (d : α) (l : List α) (h : l ≠ []) :
    lastD d l ∈ l := by
  induction l with
  | nil => exact absurd rfl h
  | cons a as ih =>
    cases as with
    | nil => simp [lastD]
    | cons b bs =>
      have : lastD d (a :: b :: bs) = lastD d (b :: bs) := rfl
      rw [this]
      exact List.mem_cons_of_mem a (ih (by simp))

/-- Splitting a concatenation: all fragments of the first part except the last,
then the fragments of the second part with the first part's trailing fragment
glued onto the front of the first one. -/
lemma splitNl_append (a b : List Char) :
    splitNl (a ++ b)
      = (splitNl a).dropLast
          ++ (splitNl b).modifyHead (fun x => lastD [] (splitNl a) ++ x) := by
  induction a with
  | nil =>
    show splitNl b = ([[]] : List (List Char)).dropLast
      ++ (splitNl b).modifyHead (fun x => lastD [] [([] : List Char)] ++ x)
    rw [show ([[]] : List (List Char)).dropLast = [] from rfl]
    rw [show lastD [] [([] : List Char)] = [] from rfl]
    rw [List.nil_append, modifyHead_nil_append]
  | cons c a ih =>
    by_cases hc : c = '\n'
    · subst hc
      show splitNl ('\n' :: (a ++ b)) = _
      rw [show splitNl ('\n' :: (a ++ b)) = [] :: splitNl (a ++ b) from by
        simp [splitNl]]
      rw [ih]
      rw [show splitNl ('\n' :: a) = [] :: splitNl a from by simp [splitNl]]
      rcases hsp : splitNl a with _ | ⟨l0, ls⟩
      · exact absurd hsp (splitNl_ne_nil a)
      · rfl
    · rw [List.cons_append, splitNl_cons_of_ne c (a ++ b) hc, ih,
        splitNl_cons_of_ne c a hc]
      rcases hsp : splitNl a with _ | ⟨l0, ls⟩
      · exact absurd hsp (splitNl_ne_nil a)
      · cases ls with
        | nil =>
          rcases hspb : splitNl b with _ | ⟨m0, ms⟩
          · exact absurd hspb (splitNl_ne_nil b)
          · rfl
        | cons l1 ls' => rfl

/-- The carry-over fragment returned by `handleNotifications` never contains a
delimiter. -/
lemma handleNotifications_buffer_no_nl (buf chunk : List Char) :
    '\n' ∉ (handleNotifications buf chunk).1 := by
  have hmem : lastD [] (splitNl (buf ++ chunk)) ∈ splitNl (buf ++ chunk) :=
    lastD_mem [] _ (splitNl_ne_nil (buf ++ chunk))
  exact nl_not_mem_of_mem_splitNl (buf ++ chunk) _ hmem

/-- Processing one chunk equals processing its two halves in sequence: the
carry of the first call is consumed by the second, and the emissions
concatenate. -/
lemma handleNotifications_append (buf c1 c2 : List Char) :
    handleNotifications buf (c1 ++ c2)
      = ((handleNotifications (handleNotifications buf c1).1 c2).1,
          (handleNotifications buf c1).2
            ++ (handleNotifications (handleNotifications buf c1).1 c2).2) := by
  have hL1 : '\n' ∉ lastD [] (splitNl (buf ++ c1)) :=
    handleNotifications_buffer_no_nl buf c1
  have hbig : buf ++ (c1 ++ c2) = (buf ++ c1) ++ c2 := (List.append_assoc _ _ _).symm
  have hM : (splitNl c2).modifyHead
      (fun x => lastD [] (splitNl (buf ++ c1)) ++ x) ≠ [] :=
    modifyHead_ne_nil _ _ (splitNl_ne_nil c2)
  have hsecond :
      splitNl (lastD [] (splitNl (buf ++ c1)) ++ c2)
        = (splitNl c2).modifyHead
            (fun x => lastD [] (splitNl (buf ++ c1)) ++ x) := by
    rw [splitNl_append, splitNl_no_nl _ hL1]
    rfl
  show (lastD [] (splitNl (buf ++ (c1 ++ c2))),
      (splitNl (buf ++ (c1 ++ c2))).dropLast.filterMap parseRecord) = _
  rw [hbig, splitNl_append (buf ++ c1) c2, Prod.mk.injEq]
  refine ⟨?_, ?_⟩
  · rw [lastD_append _ _ _ hM]
    show _ = lastD [] (splitNl (lastD [] (splitNl (buf ++ c1)) ++ c2))
    rw [hsecond]
  · rw [List.dropLast_append_of_ne_nil _ hM, List.filterMap_append]
    show _ = (splitNl (buf ++ c1)).dropLast.filterMap parseRecord
      ++ (splitNl (lastD [] (splitNl (buf ++ c1)) ++ c2)).dropLast.filterMap parseRecord
    rw [hsecond]

/-- Reassembly determinism: starting from a delimiter-free carry-over buffer,
feeding any chunk sequence one at a time ends in the same buffer and emits the
same voltage sequence as feeding the concatenation as a single chunk. -/
lemma feedChunks_eq_single (chunks : List (List Char)) :
    ∀ buf : List Char, '\n' ∉ buf →
      feedChunks buf chunks = handleNotifications buf chunks.flatten := by
  induction chunks with
  | nil =>
    intro buf hbuf
    show (buf, []) = handleNotifications buf []
    show (buf, []) = (lastD [] (splitNl (buf ++ [])),
      (splitNl (buf ++ [])).dropLast.filterMap parseRecord)
    rw [List.append_nil, splitNl_no_nl buf hbuf]
    rfl
  | cons c cs ih =>
    intro buf hbuf
    show ((feedChunks (handleNotifications buf c).1 cs).1,
        (handleNotifications buf c).2 ++ (feedChunks (handleNotifications buf c).1 cs).2)
      = handleNotifications buf (c ++ cs.flatten)
    rw [handleNotifications_append buf c cs.flatten,
      ih (handleNotifications buf c).1 (handleNotifications_buffer_no_nl buf c)]

/-- Splitting an encoded stream of delimiter-free records and a delimiter-free
trailing fragment recovers exactly the records followed by the fragment. -/
lemma splitNl_encodeStream (recs : List (List Char)) (frag : List Char)
    (hr : ∀ r ∈ recs, '\n' ∉ r) (hf : '\n' ∉ frag) :
    splitNl (encodeStream recs frag) = recs ++ [frag] := by
  induction recs with
  | nil =>
    show splitNl ([] ++ frag) = [frag]
    rw [List.nil_append, splitNl_no_nl frag hf]
  | cons r rs ih =>
    have hrec : '\n' ∉ r := hr r (List.mem_cons_self r rs)
    have hrest : ∀ x ∈ rs, '\n' ∉ x := fun x hx => hr x (List.mem_cons_of_mem r hx)
    have hcons : encodeStream (r :: rs) frag = r ++ '\n' :: encodeStream rs frag := by
      simp [encodeStream]
    rw [hcons, splitNl_record_prefix _ _ hrec, ih hrest]
    rfl

/-! ### Sample window (`src/App.tsx`, the `setEcgData` update in the
acquisition timers) -/

/-- One history update from `src/App.tsx`:
`const newHistory = [...prev, point];`
`return newHistory.length > cap ? newHistory.slice(-cap) : newHistory;`
(the source instantiates the cap with the constant `5000`). -/
def appendCapped {α : Type} (cap : Nat) (prev : List α) (point : α) : List α :=
  let newHistory := prev ++ [point]
  if newHistory.length > cap then newHistory.drop (newHistory.length - cap)
  else newHistory

/-- The window contents after appending a whole sequence of samples one at a
time, starting from the empty history. -/
def windowFold {α : Type} (cap : Nat) (points : List α) : List α :=
  points.foldl (appendCapped cap) []

/-- The capped fold keeps exactly the most recent `cap` elements: it equals
dropping all but the last `cap` of the appended sequence. -/
lemma windowFold_eq_drop {α : Type} (cap : Nat) (points : List α) :
    windowFold cap points = points.drop (points.length - cap) := by
  induction points using List.reverseRecOn with
  | nil => simp [windowFold]
  | append_singleton L p ih =>
    have hstep : windowFold cap (L ++ [p]) = appendCapped cap (windowFold cap L) p := by
      show (L ++ [p]).foldl (appendCapped cap) [] = _
      rw [List.foldl_append]
      rfl
    rw [hstep, ih]
    by_cases hcap : L.length < cap
    · have h1 : L.length - cap = 0 := by omega
      have h2 : (L ++ [p]).length - cap = 0 := by
        rw [List.length_append, List.length_singleton]; omega
      rw [h1, List.drop_zero, h2, List.drop_zero, appendCapped]
      simp only [List.length_append, List.length_singleton]
      rw [if_neg (by omega)]
    · have hle : cap ≤ L.length := le_of_not_lt hcap
      have hlenW : (L.drop (L.length - cap)).length = cap := by
        rw [List.length_drop]; omega
      rw [appendCapped]
      simp only [List.length_append, List.length_singleton, hlenW]
      rw [if_pos (by omega)]
      have h1 : cap + 1 - cap = 1 := by omega
      rw [h1]
      rcases Nat.eq_zero_or_pos cap with hc0 | hcpos
      · subst hc0
        have hW : L.drop (L.length - 0) = [] := List.length_eq_zero.mp hlenW
        rw [hW, List.nil_append]
        have h2 : L.length + 1 - 0 = (L ++ [p]).length := by simp
        rw [h2, List.drop_length]
        rfl
      · have h1le : 1 ≤ (L.drop (L.length - cap)).length := by omega
        rw [List.drop_append_of_le_length h1le, List.drop_drop]
        have hdd : L.length - cap + 1 = L.length + 1 - cap := by omega
        rw [hdd]
        have hk : L.length + 1 - cap ≤ L.length := by omega
        rw [List.drop_append_of_le_length hk]

lemma parseUnsigned_eq_none_iff (cs : List Char) :
    parseUnsigned cs = none
      ↔ (cs.take 8 ≠ infinityLiteral
          ∧ cs.takeWhile Char.isDigit = []
          ∧ (fracPart (cs.dropWhile Char.isDigit)).1 = []) := by
  simp only [parseUnsigned]
  split_ifs with hinf h
  · exact iff_of_false (by simp) (fun hc => hc.1 hinf)
  · exact iff_of_true rfl ⟨hinf, h⟩
  · exact iff_of_false (by simp) (fun hc => h ⟨hc.2.1, hc.2.2⟩)

lemma noLeading_iff (cs : List Char) :
    (hasLeadingNumber cs = false ∧ hasLeadingInfinity cs = false)
      ↔ ((stripSign cs).take 8 ≠ infinityLiteral
          ∧ (stripSign cs).takeWhile Char.isDigit = []
          ∧ (fracPart ((stripSign cs).dropWhile Char.isDigit)).1 = []) := by
  simp only [hasLeadingNumber, hasLeadingInfinity, Bool.or_eq_false_iff,
    Bool.not_eq_false', List.isEmpty_iff, beq_eq_false_iff_ne, ne_eq]
  tauto

lemma parseFloat_eq_none_iff (cs : List Char) :
    parseFloat cs = none
      ↔ (hasLeadingNumber cs = false ∧ hasLeadingInfinity cs = false) := by
  rw [noLeading_iff]
  cases cs with
  | nil => simp [parseFloat, stripSign, fracPart, infinityLiteral]
  | cons c rest =>
    show (if c = '-' then (parseUnsigned rest).map JsFloat.neg
      else if c = '+' then parseUnsigned rest
      else parseUnsigned (c :: rest)) = none ↔ _
    by_cases h1 : c = '-'
    · rw [if_pos h1,
        show stripSign (c :: rest) = rest from by simp [stripSign, h1],
        Option.map_eq_none', parseUnsigned_eq_none_iff]
    · by_cases h2 : c = '+'
      · rw [if_neg h1, if_pos h2,
          show stripSign (c :: rest) = rest from by simp [stripSign, h2],
          parseUnsigned_eq_none_iff]
      · rw [if_neg h1, if_neg h2,
          show stripSign (c :: rest) = c :: rest from by
            simp [stripSign, h1, h2],
          parseUnsigned_eq_none_iff]

/-- A record is dropped exactly when, after trimming, it has neither a
leading numeric prefix nor a leading `Infinity` literal (JavaScript:
`parseFloat` returns `NaN`); in particular every record that trims to the
empty string is dropped. -/
lemma parseRecord_eq_none_iff (line : List Char) :
    parseRecord line = none
      ↔ (hasLeadingNumber (trimChars line) = false
          ∧ hasLeadingInfinity (trimChars line) = false) := by
  simp only [parseRecord]
  split_ifs with h
  · exact parseFloat_eq_none_iff (trimChars line)
  · have hnil : trimChars line = [] := by
      cases htl : trimChars line with
      | nil => rfl
      | cons a as => rw [htl] at h; simp at h
    simp [hnil, hasLeadingNumber, hasLeadingInfinity, stripSign, fracPart,
      infinityLiteral]

/-- Ingesting a single delimiter-terminated record from an empty buffer leaves
the buffer empty and emits the record's parse result (one sample, or nothing
when the parse fails). -/
lemma handleNotifications_single_record (rec : List Char) (h : '\n' ∉ rec) :
    handleNotifications [] (rec ++ ['\n']) = ([], (parseRecord rec).toList) := by
  have hsp : splitNl ([] ++ (rec ++ ['\n'])) = [rec, []] := by
    rw [List.nil_append]
    exact splitNl_record_prefix rec [] h
  show (lastD [] (splitNl ([] ++ (rec ++ ['\n']))),
    (splitNl ([] ++ (rec ++ ['\n']))).dropLast.filterMap parseRecord) = _
  rw [hsp]
  show ([], [rec].filterMap parseRecord) = ([], (parseRecord rec).toList)
  cases hpr : parseRecord rec <;> simp [hpr]

/-! ### Acquisition session (`src/App.tsx`) -/

/-- The `SensorStatus` enum from `src/types.ts`. -/
inductive SensorStatus where
  | DISCONNECTED
  | CONNECTING
  | CONNECTED
  | ACQUIRING
deriving DecidableEq, Repr

/-- An `ECGDataPoint` from `src/types.ts` (`time` in milliseconds, `voltage`
in millivolts), with the float fields modelled as exact rationals. -/
structure ECGDataPoint where
  time : ℚ
  voltage : ℚ
deriving DecidableEq, Repr

/-- The React state of `App` that the acquisition handlers read and write,
together with the imperative resources they control: the three timer refs
(modelled by whether each timer is currently registered), the simulator's
active flag, the Bluetooth notification subscription, and the ref holding the
pending high-frequency points. -/
structure AppState where
  status : SensorStatus
  ecgData : List ECGDataPoint
  bpm : ℚ
  analysisPresent : Bool
  countdown : Option Nat
  isBluetoothConnected : Bool
  btError : Option String
  timerActive : Bool
  startupTimerActive : Bool
  countdownIntervalActive : Bool
  simulatorActive : Bool
  btStreaming : Bool
  incomingBuffer : List ECGDataPoint
deriving DecidableEq, Repr

/-- The synchronous body of `handleStart` in `src/App.tsx`: unconditionally
set status `CONNECTING`, show the 5-second countdown, clear the previous data,
analysis and pending buffer, and register the countdown interval and the
5-second startup timeout.  (The transition to `ACQUIRING` and the start of the
selected source happen later, when the startup timeout fires.)  The handler
performs no state check of its own. -/
def handleStart (s : AppState) : AppState :=
  { s with
      status := SensorStatus.CONNECTING
      countdown := some 5
      ecgData := []
      analysisPresent := false
      incomingBuffer := []
      countdownIntervalActive := true
      startupTimerActive := true }

/-- `handleStop` in `src/App.tsx`: stop the active source (the Bluetooth
stream when a device is connected, the simulator otherwise), set status
`CONNECTED`, clear all three timers and hide the countdown.  `ecgData` is not
touched. -/
def handleStop (s : AppState) : AppState :=
  let s1 :=
    if s.isBluetoothConnected then { s with btStreaming := false }
    else { s with simulatorActive := false }
  { s1 with
      status := SensorStatus.CONNECTED
      timerActive := false
      startupTimerActive := false
      countdownIntervalActive := false
      countdown := none }

/-- `handleReset` in `src/App.tsx`: `handleStop`, then clear the data and the
analysis, reset the displayed heart rate, and set status `CONNECTED` or
`DISCONNECTED` depending on whether a Bluetooth device is still connected. -/
def handleReset (s : AppState) : AppState :=
  let s1 := handleStop s
  { s1 with
      ecgData := []
      status := if s.isBluetoothConnected then SensorStatus.CONNECTED
        else SensorStatus.DISCONNECTED
      analysisPresent := false
      bpm := 0 }

/-- The rejection handler attached to `startStreaming(...)` in `handleStart`
(`.catch(err => { ...; setBtError("Stream failed"); handleStop(); })`): the one
code path in which a transport failure ends the current run. -/
def streamCatch (s : AppState) : AppState :=
  handleStop { s with btError := some "Stream failed" }

/-- `onDisconnected` in `src/services/bluetoothService.ts`: the
`gattserverdisconnected` listener only writes a console log; it changes no
application state. -/
def onDisconnected (s : AppState) : AppState :=
  s

/-- A click on the primary action button in the rendered UI: `handleStart`
runs only when the start button is rendered, which the JSX does exclusively
when the status is neither `CONNECTING` (countdown button shown instead) nor
`ACQUIRING` (stop button shown instead). -/
def uiStartClick (s : AppState) : AppState :=
  if s.status = SensorStatus.CONNECTING ∨ s.status = SensorStatus.ACQUIRING then s
  else handleStart s

/-- A concrete mid-run state: simulator acquisition in progress with one
retained sample. -/
def acquiringSimState : AppState :=
  { status := SensorStatus.ACQUIRING
    ecgData := [⟨0, 1⟩]
    bpm := 72
    analysisPresent := false
    countdown := none
    isBluetoothConnected := false
    btError := none
    timerActive := true
    startupTimerActive := false
    countdownIntervalActive := false
    simulatorActive := true
    btStreaming := false
    incomingBuffer := [] }

/-- A concrete mid-run state: Bluetooth acquisition in progress with one
retained sample. -/
def acquiringBtState : AppState :=
  { acquiringSimState with
      isBluetoothConnected := true
      simulatorActive := false
      btStreaming := true }

/-! ### Concrete record evaluations -/

lemma parseRecord_eval (line t : List Char) (h : trimChars line = t)
    (hlen : t.length > 0) :
    parseRecord line = parseFloat t := by
  simp only [parseRecord, h]
  rw [if_pos hlen]

lemma parseFloat_no_sign (c : Char) (rest : List Char) (h1 : c ≠ '-')
    (h2 : c ≠ '+') :
    parseFloat (c :: rest) = parseUnsigned (c :: rest) := by
  show (if c = '-' then (parseUnsigned rest).map JsFloat.neg
    else if c = '+' then parseUnsigned rest
    else parseUnsigned (c :: rest)) = _
  rw [if_neg h1, if_neg h2]

lemma parseUnsigned_eval (cs intDs fd rest2 : List Char)
    (hinf : ¬(cs.take 8 = infinityLiteral))
    (ht : cs.takeWhile Char.isDigit = intDs)
    (hd : fracPart (cs.dropWhile Char.isDigit) = (fd, rest2))
    (hne : ¬(intDs = [] ∧ fd = [])) :
    parseUnsigned cs
      = some (JsFloat.finite (expPart
          ((digitsToNat intDs : ℚ) + (digitsToNat fd : ℚ) / 10 ^ fd.length)
          rest2)) := by
  simp only [parseUnsigned, ht, hd]
  rw [if_neg hinf, if_neg hne]

lemma expPart_nil (m : ℚ) : expPart m [] = m := rfl

lemma expPart_not_e (m : ℚ) (c : Char) (rest : List Char) (h1 : c ≠ 'e')
    (h2 : c ≠ 'E') :
    expPart m (c :: rest) = m := by
  show (if c = 'e' ∨ c = 'E' then expApply m rest else m) = m
  rw [if_neg (by simp [h1, h2])]

lemma filterMap_singleton {α β : Type} (f : α → Option β) (a : α) :
    List.filterMap f [a] = (f a).toList := by
  cases h : f a <;> simp [h]

lemma parseRecord_one : parseRecord "1.0".data = some (JsFloat.finite 1) := by
  rw [parseRecord_eval "1.0".data ['1', '.', '0'] (by decide) (by decide),
    parseFloat_no_sign '1' ['.', '0'] (by decide) (by decide),
    parseUnsigned_eval ['1', '.', '0'] ['1'] ['0'] [] (by decide) (by decide)
      (by decide) (by decide)]
  norm_num [expPart_nil, show digitsToNat ['1'] = 1 from by decide,
    show digitsToNat ['0'] = 0 from by decide]

lemma parseRecord_two : parseRecord "2.0".data = some (JsFloat.finite 2) := by
  rw [parseRecord_eval "2.0".data ['2', '.', '0'] (by decide) (by decide),
    parseFloat_no_sign '2' ['.', '0'] (by decide) (by decide),
    parseUnsigned_eval ['2', '.', '0'] ['2'] ['0'] [] (by decide) (by decide)
      (by decide) (by decide)]
  norm_num [expPart_nil, show digitsToNat ['2'] = 2 from by decide,
    show digitsToNat ['0'] = 0 from by decide]

lemma parseRecord_threefive :
    parseRecord "3.5".data = some (JsFloat.finite (7 / 2)) := by
  rw [parseRecord_eval "3.5".data ['3', '.', '5'] (by decide) (by decide),
    parseFloat_no_sign '3' ['.', '5'] (by decide) (by decide),
    parseUnsigned_eval ['3', '.', '5'] ['3'] ['5'] [] (by decide) (by decide)
      (by decide) (by decide)]
  norm_num [expPart_nil, show digitsToNat ['3'] = 3 from by decide,
    show digitsToNat ['5'] = 5 from by decide]

lemma parseRecord_four : parseRecord "4.0".data = some (JsFloat.finite 4) := by
  rw [parseRecord_eval "4.0".data ['4', '.', '0'] (by decide) (by decide),
    parseFloat_no_sign '4' ['.', '0'] (by decide) (by decide),
    parseUnsigned_eval ['4', '.', '0'] ['4'] ['0'] [] (by decide) (by decide)
      (by decide) (by decide)]
  norm_num [expPart_nil, show digitsToNat ['4'] = 4 from by decide,
    show digitsToNat ['0'] = 0 from by decide]

lemma parseRecord_oneabc :
    parseRecord "1.0abc".data = some (JsFloat.finite 1) := by
  rw [parseRecord_eval "1.0abc".data ['1', '.', '0', 'a', 'b', 'c'] (by decide)
      (by decide),
    parseFloat_no_sign '1' ['.', '0', 'a', 'b', 'c'] (by decide) (by decide),
    parseUnsigned_eval ['1', '.', '0', 'a', 'b', 'c'] ['1'] ['0'] ['a', 'b', 'c']
      (by decide) (by decide) (by decide) (by decide),
    expPart_not_e _ 'a' ['b', 'c'] (by decide) (by decide)]
  norm_num [show digitsToNat ['1'] = 1 from by decide,
    show digitsToNat ['0'] = 0 from by decide]

lemma parseRecord_abc : parseRecord "abc".data = none := by decide

/-! ### Claims -/

/-- C1: For every `elapsedMs` and every `bpm > 0`, with the noise term fixed
to zero, `generateECGSignal elapsedMs bpm 0` equals the sum of the five
Gaussian bumps `amplitude * exp (-((t - center) / width) ^ 2)` over beat-phase
`t = (elapsedMs mod (60000 / bpm)) / (60000 / bpm)`, with
`(amplitude, center, width)` exactly `(+0.15, 0.20, 0.03)` for P,
`(-0.15, 0.38, 0.02)` for Q, `(+1.00, 0.40, 0.02)` for R,
`(-0.25, 0.42, 0.02)` for S, `(+0.30, 0.70, 0.08)` for T, plus the baseline
drift `0.05 * sin (elapsedMs / 2000)` — whatever `Math.random()` returned. -/
theorem C1_pqrst_formula (elapsedMs bpm rand : ℝ) (_hbpm : 0 < bpm) :
    generateECGSignal elapsedMs bpm 0 rand = specWaveform elapsedMs bpm :=
  generateECGSignal_zero_noise elapsedMs bpm rand

/-- Witness for C1 at `elapsedMs = 0`, `bpm = 72`. -/
theorem C1_pqrst_formula_witness :
    generateECGSignal 0 72 0 0 = specWaveform 0 72 :=
  C1_pqrst_formula 0 72 0 (by norm_num)

/-- C2: Feeding chunks one by one to the reassembler emits exactly the same
sample sequence (and leaves the same carry-over buffer) as feeding their
concatenation as a single chunk, wherever the boundaries fall; in particular
ingesting `"1.0\n2.0\n3."` then `"5\n4.0\n"` emits `1.0, 2.0, 3.5, 4.0` in
that order. -/
theorem C2_chunk_boundary_invariance :
    (∀ chunks : List (List Char),
        feedChunks [] chunks = handleNotifications [] chunks.flatten)
      ∧ feedChunks [] ["1.0\n2.0\n3.".data, "5\n4.0\n".data]
          = ([], [JsFloat.finite 1, JsFloat.finite 2, JsFloat.finite (7 / 2),
              JsFloat.finite 4]) := by
  refine ⟨fun chunks => feedChunks_eq_single chunks [] (by simp), ?_⟩
  have e1 : handleNotifications [] ("1.0\n2.0\n3.".data)
      = ("3.".data, [JsFloat.finite 1, JsFloat.finite 2]) := by
    have hs : splitNl ("1.0\n2.0\n3.".data)
        = ["1.0".data, "2.0".data, "3.".data] := by decide
    show (lastD [] (splitNl ([] ++ "1.0\n2.0\n3.".data)),
      (splitNl ([] ++ "1.0\n2.0\n3.".data)).dropLast.filterMap parseRecord) = _
    rw [List.nil_append, hs]
    show ("3.".data, List.filterMap parseRecord ["1.0".data, "2.0".data]) = _
    rw [show List.filterMap parseRecord ["1.0".data, "2.0".data]
        = List.filterMap parseRecord ["1.0".data]
          ++ List.filterMap parseRecord ["2.0".data] from
      (List.filterMap_append ["1.0".data] ["2.0".data] parseRecord).symm]
    rw [filterMap_singleton, filterMap_singleton, parseRecord_one,
      parseRecord_two]
    rfl
  have e2 : handleNotifications ("3.".data) ("5\n4.0\n".data)
      = ([], [JsFloat.finite (7 / 2), JsFloat.finite 4]) := by
    have hs : splitNl ("3.".data ++ "5\n4.0\n".data)
        = ["3.5".data, "4.0".data, []] := by decide
    show (lastD [] (splitNl ("3.".data ++ "5\n4.0\n".data)),
      (splitNl ("3.".data ++ "5\n4.0\n".data)).dropLast.filterMap parseRecord)
      = _
    rw [hs]
    show ([], List.filterMap parseRecord ["3.5".data, "4.0".data]) = _
    rw [show List.filterMap parseRecord ["3.5".data, "4.0".data]
        = List.filterMap parseRecord ["3.5".data]
          ++ List.filterMap parseRecord ["4.0".data] from
      (List.filterMap_append ["3.5".data] ["4.0".data] parseRecord).symm]
    rw [filterMap_singleton, filterMap_singleton, parseRecord_threefive,
      parseRecord_four]
    rfl
  show ((feedChunks (handleNotifications [] "1.0\n2.0\n3.".data).1
        ["5\n4.0\n".data]).1,
      (handleNotifications [] "1.0\n2.0\n3.".data).2
        ++ (feedChunks (handleNotifications [] "1.0\n2.0\n3.".data).1
              ["5\n4.0\n".data]).2)
    = ([], [JsFloat.finite 1, JsFloat.finite 2, JsFloat.finite (7 / 2),
        JsFloat.finite 4])
  rw [e1]
  show ((feedChunks "3.".data ["5\n4.0\n".data]).1,
    [JsFloat.finite 1, JsFloat.finite 2]
      ++ (feedChunks "3.".data ["5\n4.0\n".data]).2) = _
  show ((handleNotifications "3.".data "5\n4.0\n".data).1,
    [JsFloat.finite 1, JsFloat.finite 2]
      ++ ((handleNotifications "3.".data "5\n4.0\n".data).2 ++ []))
    = _
  rw [e2]
  rfl

/-- C3: The sample window never holds more than its cap: after appending
`M > N` samples to the empty window, the retained history has length exactly
`N` and equals the last `N` appended samples in order. -/
theorem C3_window_cap {α : Type} (cap : Nat) (points : List α)
    (h : points.length > cap) :
    (windowFold cap points).length = cap
      ∧ windowFold cap points = points.drop (points.length - cap) := by
  refine ⟨?_, windowFold_eq_drop cap points⟩
  rw [windowFold_eq_drop, List.length_drop]
  omega

/-- Witness for C3: cap 3, appending voltages 1, 2, 3, 4, 5 leaves 3, 4, 5. -/
theorem C3_window_cap_witness :
    (windowFold 3 [(1 : ℚ), 2, 3, 4, 5]).length = 3
      ∧ windowFold 3 [(1 : ℚ), 2, 3, 4, 5] = [3, 4, 5] := by
  have h := C3_window_cap 3 [(1 : ℚ), 2, 3, 4, 5] (by decide)
  exact ⟨h.1, by rw [h.2]; decide⟩

/-- C4 is false as stated: the output is not periodic with period
`60000 / bpm`, because the baseline drift `0.05 * sin (elapsedMs / 2000)` does
not have that period.  At `bpm = 60`, `elapsedMs = 0`, adding one period
(1000 ms) changes the output. -/
theorem C4_not_periodic_counterexample :
    generateECGSignal (0 + 60000 / 60) 60 0 0 ≠ generateECGSignal 0 60 0 0 := by
  have hp := beatPhase_c4
  have hsin : 0 < Real.sin ((0 + 60000 / 60) / 2000 : ℝ) := by
    rw [show ((0 : ℝ) + 60000 / 60) / 2000 = 1 / 2 by norm_num]
    exact Real.sin_pos_of_pos_of_lt_pi (by norm_num)
      (by linarith [Real.pi_gt_three])
  simp only [generateECGSignal, hp.1, hp.2]
  intro heq
  rw [show Real.sin ((0 : ℝ) / 2000) = 0 by norm_num] at heq
  rw [show ((0 : ℝ) + 60000 / 60) / 2000 = 1 / 2 by norm_num] at heq hsin
  nlinarith [heq, hsin]

/-- C4 (amended): for every `bpm > 0` and every `elapsedMs ≥ 0`, with zero
noise, the output minus the baseline drift term is periodic with period
`60000 / bpm`: the five Gaussian bumps repeat beat for beat, and only the
drift breaks exact periodicity of the full output. -/
theorem C4_periodic_modulo_drift (elapsedMs bpm rand : ℝ)
    (hb : 0 < bpm) (ht : 0 ≤ elapsedMs) :
    generateECGSignal (elapsedMs + 60000 / bpm) bpm 0 rand
        - 0.05 * Real.sin ((elapsedMs + 60000 / bpm) / 2000)
      = generateECGSignal elapsedMs bpm 0 rand
        - 0.05 * Real.sin (elapsedMs / 2000) := by
  have hp := beatPhase_add_period elapsedMs bpm ht hb
  simp only [generateECGSignal, hp]
  ring

/-- Witness for the amended C4 at `elapsedMs = 0`, `bpm = 60`. -/
theorem C4_periodic_modulo_drift_witness :
    generateECGSignal (0 + 60000 / 60) 60 0 0
        - 0.05 * Real.sin ((0 + 60000 / 60) / 2000)
      = generateECGSignal 0 60 0 0 - 0.05 * Real.sin ((0 : ℝ) / 2000) :=
  C4_periodic_modulo_drift 0 60 0 (by norm_num) (by norm_num)

/-- C5: A delimited record that trims to empty or fails numeric parse is
silently dropped: it emits no sample, the stream is not aborted, the
carry-over state is the same as for the stream without it, and every
well-formed record around it is still emitted — so one malformed record costs
exactly its own sample and nothing else.  The trailing fragment after the last
delimiter becomes the carry-over buffer: it is retained, never emitted. -/
theorem C5_malformed_record_dropped (pre suf : List (List Char))
    (bad frag : List Char)
    (hbad : parseRecord bad = none)
    (hnl : ∀ r ∈ pre ++ [bad] ++ suf, '\n' ∉ r)
    (hfrag : '\n' ∉ frag) :
    handleNotifications [] (encodeStream (pre ++ [bad] ++ suf) frag)
      = (frag, pre.filterMap parseRecord ++ suf.filterMap parseRecord) := by
  have hsp : splitNl ([] ++ encodeStream (pre ++ [bad] ++ suf) frag)
      = (pre ++ [bad] ++ suf) ++ [frag] := by
    rw [List.nil_append]
    exact splitNl_encodeStream _ _ hnl hfrag
  show (lastD [] (splitNl ([] ++ encodeStream (pre ++ [bad] ++ suf) frag)),
    (splitNl ([] ++ encodeStream (pre ++ [bad] ++ suf) frag)).dropLast.filterMap
      parseRecord) = _
  rw [hsp, Prod.mk.injEq]
  refine ⟨?_, ?_⟩
  · rw [lastD_append [] _ [frag] (by simp)]
    rfl
  · rw [List.dropLast_concat, List.filterMap_append, List.filterMap_append]
    simp [hbad]

/-- Witness for C5: the malformed record `"abc"` between `"1.0"` and `"2.0"`,
with trailing fragment `"3."`, emits exactly `1.0, 2.0` and carries `"3."`. -/
theorem C5_malformed_record_dropped_witness :
    handleNotifications []
        (encodeStream (["1.0".data] ++ ["abc".data] ++ ["2.0".data]) "3.".data)
      = ("3.".data, [JsFloat.finite 1, JsFloat.finite 2]) := by
  have h := C5_malformed_record_dropped ["1.0".data] ["2.0".data]
    "abc".data "3.".data parseRecord_abc (by decide) (by decide)
  rw [h, filterMap_singleton, filterMap_singleton, parseRecord_one,
    parseRecord_two]
  rfl

/-- C6 is false as stated: `handleStart` invoked while `ACQUIRING` is not a
no-op.  In the concrete acquiring state it changes the status (to
`CONNECTING`) and clears the retained samples, and nothing reports
`AlreadyRunning` — the handler performs no state check at all. -/
theorem C6_start_while_acquiring_counterexample :
    acquiringSimState.status = SensorStatus.ACQUIRING
      ∧ handleStart acquiringSimState ≠ acquiringSimState
      ∧ (handleStart acquiringSimState).ecgData ≠ acquiringSimState.ecgData := by
  refine ⟨rfl, ?_, ?_⟩
  · intro heq
    exact SensorStatus.noConfusion (congrArg AppState.status heq)
  · intro heq
    exact List.noConfusion heq

/-- C6 (amended): `handleStart` is unguarded — from every state it
unconditionally moves to `CONNECTING` (the countdown) and clears the sample
window, and no `AlreadyRunning` is reported; invoking start while `ACQUIRING`
is prevented only by the UI, which does not render the start control in that
state (modelled by `uiStartClick`), so a start click while `ACQUIRING` changes
nothing. -/
theorem C6_start_unguarded (s : AppState) :
    (handleStart s).status = SensorStatus.CONNECTING
      ∧ (handleStart s).ecgData = []
      ∧ (s.status = SensorStatus.ACQUIRING → uiStartClick s = s) := by
  refine ⟨rfl, rfl, fun h => ?_⟩
  show (if s.status = SensorStatus.CONNECTING
      ∨ s.status = SensorStatus.ACQUIRING then s else handleStart s) = s
  rw [if_pos (Or.inr h)]

/-- Witness for the amended C6 in the concrete acquiring state. -/
theorem C6_start_unguarded_witness :
    uiStartClick acquiringSimState = acquiringSimState :=
  (C6_start_unguarded acquiringSimState).2.2 rfl

/-- C7: `handleStop` while `ACQUIRING` moves the session to the stopped state
(`CONNECTED`), cancels the acquisition timer and stops the active source
(the Bluetooth stream when a device is connected, the simulator otherwise),
but leaves the sample window contents untouched; the retained samples are
cleared by `handleReset` and by a new `handleStart`, each of which empties the
window. -/
theorem C7_stop_preserves_window (s : AppState)
    (_h : s.status = SensorStatus.ACQUIRING) :
    (handleStop s).ecgData = s.ecgData
      ∧ (handleStop s).status = SensorStatus.CONNECTED
      ∧ (handleStop s).timerActive = false
      ∧ (s.isBluetoothConnected = true → (handleStop s).btStreaming = false)
      ∧ (s.isBluetoothConnected = false
          → (handleStop s).simulatorActive = false)
      ∧ (handleReset s).ecgData = []
      ∧ (handleStart s).ecgData = [] := by
  cases hb : s.isBluetoothConnected <;>
    simp [handleStop, handleReset, handleStart, hb]

/-- Witness for C7 in the concrete acquiring state. -/
theorem C7_stop_preserves_window_witness :
    (handleStop acquiringSimState).ecgData = acquiringSimState.ecgData
      ∧ (handleStop acquiringSimState).status = SensorStatus.CONNECTED
      ∧ (handleReset acquiringSimState).ecgData = [] :=
  ⟨(C7_stop_preserves_window acquiringSimState rfl).1,
    (C7_stop_preserves_window acquiringSimState rfl).2.1,
    (C7_stop_preserves_window acquiringSimState rfl).2.2.2.2.2.1⟩

/-- C8 is false as stated: the transport's own failure signal — the
`gattserverdisconnected` event, handled by `onDisconnected` — does not stop
the session.  In the concrete Bluetooth acquiring state the handler (which
only logs) leaves the state unchanged: still `ACQUIRING`, no error surfaced,
stream subscription still registered. -/
theorem C8_disconnect_ignored_counterexample :
    acquiringBtState.status = SensorStatus.ACQUIRING
      ∧ onDisconnected acquiringBtState = acquiringBtState
      ∧ (onDisconnected acquiringBtState).status = SensorStatus.ACQUIRING
      ∧ (onDisconnected acquiringBtState).btError = none
      ∧ (onDisconnected acquiringBtState).btStreaming = true :=
  ⟨rfl, rfl, rfl, rfl, rfl⟩

/-- C8 (amended): the one transport failure that ends a run is a rejection of
the streaming start (`startStreaming(...).catch`): the catch handler surfaces
the error `"Stream failed"` and performs a full `handleStop` — leaving
`ACQUIRING`, cancelling the timers, stopping the stream, and preserving the
window.  A mid-run `gattserverdisconnected` signal, by contrast, is only
logged and changes nothing. -/
theorem C8_stream_catch_stops (s : AppState)
    (_h : s.status = SensorStatus.ACQUIRING) :
    (streamCatch s).status = SensorStatus.CONNECTED
      ∧ (streamCatch s).btError = some "Stream failed"
      ∧ (streamCatch s).timerActive = false
      ∧ (streamCatch s).startupTimerActive = false
      ∧ (streamCatch s).ecgData = s.ecgData
      ∧ (s.isBluetoothConnected = true → (streamCatch s).btStreaming = false)
      ∧ onDisconnected s = s := by
  cases hb : s.isBluetoothConnected <;>
    simp [streamCatch, handleStop, onDisconnected, hb]

/-- Witness for the amended C8 in the concrete Bluetooth acquiring state. -/
theorem C8_stream_catch_stops_witness :
    (streamCatch acquiringBtState).status = SensorStatus.CONNECTED
      ∧ (streamCatch acquiringBtState).btError = some "Stream failed"
      ∧ (streamCatch acquiringBtState).btStreaming = false :=
  ⟨(C8_stream_catch_stops acquiringBtState rfl).1,
    (C8_stream_catch_stops acquiringBtState rfl).2.1,
    (C8_stream_catch_stops acquiringBtState rfl).2.2.2.2.2.1 rfl⟩

/-- C9 is false as stated: calling the synthesizer with `bpm = -60 ≤ 0` does
not fail with `InvalidParameter` — the call returns normally (the source
contains no validation and no throw). -/
theorem C9_no_invalid_parameter_counterexample :
    synthesizerCall 0 (-60) 0 0 ≠ Except.error SynthError.InvalidParameter := by
  intro h
  exact Except.noConfusion h

/-- C9 (amended): `bpm ≤ 0` is not validated: for every such `bpm` the call
returns normally with the ordinary five-bump-plus-drift voltage (computed with
a negative or zero beat duration), never an `InvalidParameter` failure. -/
theorem C9_no_bpm_validation (timeMs bpm rand : ℝ) (_hb : bpm ≤ 0) :
    synthesizerCall timeMs bpm 0 rand
      = Except.ok (specWaveform timeMs bpm) := by
  show Except.ok (generateECGSignal timeMs bpm 0 rand) = _
  rw [generateECGSignal_zero_noise]

/-- Witness for the amended C9 at `bpm = -60`. -/
theorem C9_no_bpm_validation_witness :
    synthesizerCall 0 (-60) 0 0 = Except.ok (specWaveform 0 (-60)) :=
  C9_no_bpm_validation 0 (-60) 0 (by norm_num)

/-- C10 is false as stated: it is not true that only records with no leading
numeric prefix at all are dropped.  The record `"Infinity"` has no leading
numeric prefix, yet JavaScript's `parseFloat` accepts the `Infinity` literal,
`isNaN(Infinity)` is false, and the reassembler therefore emits it as a
sample rather than dropping it. -/
theorem C10_infinity_counterexample :
    hasLeadingNumber (trimChars "Infinity".data) = false
      ∧ parseRecord "Infinity".data = some (JsFloat.infinite false)
      ∧ handleNotifications [] ("Infinity".data ++ ['\n'])
          = ([], [JsFloat.infinite false]) := by
  refine ⟨by decide, by decide, ?_⟩
  rw [handleNotifications_single_record "Infinity".data (by decide),
    show parseRecord "Infinity".data = some (JsFloat.infinite false) from by
      decide]
  rfl

/-- C10 (amended): a delimited record is emitted exactly when its parse is
non-`NaN`: ingesting one record emits its parse result; a record parses to
`none` (JavaScript `NaN`) if and only if after trimming it has neither a
leading numeric prefix nor a leading `Infinity` literal (after the optional
sign); a record whose leading characters parse as a float is emitted even if
non-numeric characters follow — `"1.0abc"` emits the sample `1.0` — while
`"abc"` is dropped. -/
theorem C10_trailing_garbage_tolerated :
    (∀ rec : List Char, '\n' ∉ rec →
        handleNotifications [] (rec ++ ['\n']) = ([], (parseRecord rec).toList)
          ∧ (parseRecord rec = none
              ↔ (hasLeadingNumber (trimChars rec) = false
                  ∧ hasLeadingInfinity (trimChars rec) = false)))
      ∧ parseRecord "1.0abc".data = some (JsFloat.finite 1)
      ∧ parseRecord "abc".data = none :=
  ⟨fun rec h =>
    ⟨handleNotifications_single_record rec h, parseRecord_eq_none_iff rec⟩,
    parseRecord_oneabc, parseRecord_abc⟩

/-- Witness for the amended C10 at the record `"1.0abc"`. -/
theorem C10_trailing_garbage_tolerated_witness :
    handleNotifications [] ("1.0abc".data ++ ['\n'])
      = ([], (parseRecord "1.0abc".data).toList) :=
  (C10_trailing_garbage_tolerated.1 "1.0abc".data (by decide)).1
